import Mathlib

/-!
Verification of the Ledger Computation Engine of the shares capital-gains
application. The repository's own source under `src/` contains only the
presentation layer (React components), the shared TypeScript data contracts
(`src/types/index.ts`) and an HTTP client; the engine itself (Lot Matcher,
Gain Classifier, Tax Calculator, Position Aggregator) is absent and is
therefore modelled here from the specification's words, over the data shapes
declared in `src/types/index.ts`. Quantities, amounts and rates are embedded
as rationals; dates as explicit year/month/day triples.
-/

namespace Shares

/-- Modelled from the spec: a calendar date (ISO-8601 dates travel as strings;
only the year/month/day components matter to the engine). -/
structure Date where
  year : Int
  month : Int
  day : Int
deriving DecidableEq, Repr

/-- Modelled from the spec (§4.2): the whole-month (floored) difference between
two dates: 12 per year plus the month difference, minus one when the day of
month has not yet been reached. -/
def monthsBetween (a b : Date) : Int :=
  (b.year - a.year) * 12 + (b.month - a.month) - (if b.day < a.day then 1 else 0)

/-- From `src/types/index.ts` (`Transaction` input shape, §3 TransactionRow):
one per-stock row carrying up to three independent (date, qty, amt) triples. -/
structure TransactionRow where
  share : String
  openingDate : Option Date
  openingQty : Rat
  openingAmt : Rat
  purchaseDate : Option Date
  purchaseQty : Rat
  purchaseAmt : Rat
  saleDate : Option Date
  saleQty : Rat
  saleAmt : Rat
deriving DecidableEq, Repr

/-- Modelled from the spec (§3): an acquisition lot: date, remaining quantity
and unit cost. -/
structure Lot where
  acquisitionDate : Option Date
  quantity : Rat
  unitCost : Rat
deriving DecidableEq, Repr

/-- Gain classification labels, from `src/types/index.ts` (`gainType`). -/
inductive GainType where
  | LTCG
  | STCG
deriving DecidableEq, Repr

/-- Modelled from the spec (§3 MatchedTransaction): the sale component of a
matched record: sale date, matched sale quantity and proportional proceeds. -/
structure SaleInfo where
  saleDate : Option Date
  saleQty : Rat
  proceeds : Rat
deriving DecidableEq, Repr

/-- Modelled from the spec (§3 MatchedTransaction): one output record per
sale-lot pairing, or per unmatched lot carried to the closing balance.
`quantity` is the lot quantity consumed (matched) or remaining (unmatched);
`cost` its proportional cost; `gainType`/`gain` are filled by the Gain
Classifier only when a sale consumed the lot. -/
structure MatchedTxn where
  acquisitionDate : Option Date
  quantity : Rat
  cost : Rat
  sale : Option SaleInfo
  gainType : Option GainType
  gain : Option Rat
deriving DecidableEq, Repr

/-- Modelled from the spec (§7): the Lot Matcher's error: a sale consumed more
than the available lot quantity for a share. -/
inductive MatchError where
  | oversold
deriving DecidableEq, Repr

/-- Modelled from the spec (§4.1): a sale event extracted from a row with
sale quantity strictly positive. -/
structure SaleEvent where
  date : Option Date
  qty : Rat
  amt : Rat
deriving DecidableEq, Repr

/-- Modelled from the spec (§4.1): the opening lot of a row, when its opening
quantity is strictly positive; unit cost is amount over quantity. -/
def openingLotOf (r : TransactionRow) : Option Lot :=
  if 0 < r.openingQty then
    some { acquisitionDate := r.openingDate, quantity := r.openingQty,
           unitCost := r.openingAmt / r.openingQty }
  else none

/-- Modelled from the spec (§4.1): the purchase lot of a row, when its purchase
quantity is strictly positive. -/
def purchaseLotOf (r : TransactionRow) : Option Lot :=
  if 0 < r.purchaseQty then
    some { acquisitionDate := r.purchaseDate, quantity := r.purchaseQty,
           unitCost := r.purchaseAmt / r.purchaseQty }
  else none

/-- Modelled from the spec (§4.1): the acquisition queue: all opening lots (in
file order) ahead of all purchase lots (in file order), regardless of row
interleaving. -/
def buildQueue (rows : List TransactionRow) : List Lot :=
  rows.filterMap openingLotOf ++ rows.filterMap purchaseLotOf

/-- Modelled from the spec (§4.1): the sale events of the rows, in file order,
one per row with sale quantity strictly positive. -/
def saleEvents (rows : List TransactionRow) : List SaleEvent :=
  (rows.filter (fun r => 0 < r.saleQty)).map
    (fun r => { date := r.saleDate, qty := r.saleQty, amt := r.saleAmt })

/-- Modelled from the spec (§4.1): consume `rem` units of one sale from the
front of the lot queue. Each consumption produces one MatchedTransaction with
the consumed quantity, its proportional cost (unitCost x consumed) and the
sale's proportional proceeds (unit proceeds x consumed); partial consumption
splits the front lot, leaving the remainder at the front. Exhausting the queue
with sale quantity left is the oversold error. -/
def consumeFrom (sd : Option Date) (unitProceeds : Rat) :
    List Lot → Rat → Except MatchError (List MatchedTxn × List Lot)
  | [], rem =>
      if rem ≤ 0 then Except.ok ([], []) else Except.error MatchError.oversold
  | lot :: rest, rem =>
      if rem ≤ 0 then Except.ok ([], lot :: rest)
      else if lot.quantity ≤ rem then
        match consumeFrom sd unitProceeds rest (rem - lot.quantity) with
        | Except.error e => Except.error e
        | Except.ok (ms, q) =>
            Except.ok
              ({ acquisitionDate := lot.acquisitionDate,
                 quantity := lot.quantity,
                 cost := lot.unitCost * lot.quantity,
                 sale := some { saleDate := sd, saleQty := lot.quantity,
                                proceeds := unitProceeds * lot.quantity },
                 gainType := none, gain := none } :: ms, q)
      else
        Except.ok
          ([{ acquisitionDate := lot.acquisitionDate,
              quantity := rem,
              cost := lot.unitCost * rem,
              sale := some { saleDate := sd, saleQty := rem,
                             proceeds := unitProceeds * rem },
              gainType := none, gain := none }],
            { lot with quantity := lot.quantity - rem } :: rest)

/-- Modelled from the spec (§4.1): process the sale events in file order against
the acquisition queue, accumulating the matched records. -/
def runSales : List Lot → List SaleEvent → Except MatchError (List MatchedTxn × List Lot)
  | lots, [] => Except.ok ([], lots)
  | lots, s :: ss =>
      match consumeFrom s.date (s.amt / s.qty) lots s.qty with
      | Except.error e => Except.error e
      | Except.ok (ms, lots1) =>
          match runSales lots1 ss with
          | Except.error e => Except.error e
          | Except.ok (ms2, fin) => Except.ok (ms ++ ms2, fin)

/-- Modelled from the spec (§4.1): an unmatched remaining lot becomes a
MatchedTransaction with no sale and no gain fields. -/
def unmatchedTxn (lot : Lot) : MatchedTxn :=
  { acquisitionDate := lot.acquisitionDate, quantity := lot.quantity,
    cost := lot.unitCost * lot.quantity, sale := none,
    gainType := none, gain := none }

/-- Modelled from the spec (§4.1): the Lot Matcher for one share: build the
acquisition queue, consume the sales FIFO, then append the remaining lots as
unmatched records. -/
def matchShare (rows : List TransactionRow) : Except MatchError (List MatchedTxn) :=
  match runSales (buildQueue rows) (saleEvents rows) with
  | Except.error e => Except.error e
  | Except.ok (ms, rem) => Except.ok (ms ++ rem.map unmatchedTxn)

/-- Sum of row opening quantities. -/
def totalOpeningQty (rows : List TransactionRow) : Rat :=
  (rows.map TransactionRow.openingQty).sum

/-- Sum of row purchase quantities. -/
def totalPurchaseQty (rows : List TransactionRow) : Rat :=
  (rows.map TransactionRow.purchaseQty).sum

/-- Sum of row sale quantities. -/
def totalSaleQty (rows : List TransactionRow) : Rat :=
  (rows.map TransactionRow.saleQty).sum

/-- Sum of lot quantities. -/
def lotsQty (lots : List Lot) : Rat :=
  (lots.map Lot.quantity).sum

/-- Sum of MatchedTransaction quantities. -/
def txnsQty (ts : List MatchedTxn) : Rat :=
  (ts.map MatchedTxn.quantity).sum

/-- Sum of matched sale quantities over MatchedTransactions (unmatched records
contribute nothing). -/
def saleQtySum (ts : List MatchedTxn) : Rat :=
  (ts.filterMap (fun t => t.sale.map SaleInfo.saleQty)).sum

/-- A valid input row (§6): all quantities and amounts non-negative. -/
def validRow (r : TransactionRow) : Prop :=
  0 ≤ r.openingQty ∧ 0 ≤ r.openingAmt ∧ 0 ≤ r.purchaseQty ∧
    0 ≤ r.purchaseAmt ∧ 0 ≤ r.saleQty ∧ 0 ≤ r.saleAmt

instance (r : TransactionRow) : Decidable (validRow r) := by
  unfold validRow
  infer_instance

/-- From `src/types/index.ts` (`TaxConfig.stcg`): STCG configuration block. -/
structure StcgConfig where
  rate : Rat
  description : String
  holdingPeriod : Int
  cess : Rat
deriving DecidableEq, Repr

/-- From `src/types/index.ts` (`TaxConfig.ltcg`): LTCG configuration block. -/
structure LtcgConfig where
  rate : Rat
  description : String
  holdingPeriod : Int
  exemptionLimit : Rat
  cess : Rat
  indexationBenefit : Bool
deriving DecidableEq, Repr

/-- From `src/types/index.ts` (`TaxConfig`). -/
structure TaxConfig where
  financialYear : String
  stcg : StcgConfig
  ltcg : LtcgConfig
deriving DecidableEq, Repr

/-- Modelled from the spec (§4.2): holding period in whole months between the
acquisition and sale dates; 0 when either date is absent (a missing date with a
sale is a malformed row, outside the classification contract). -/
def holdingMonths (acq sale : Option Date) : Int :=
  match acq, sale with
  | some a, some s => monthsBetween a s
  | _, _ => 0

/-- Modelled from the spec (§4.2): the Gain Classifier: for a record with a
sale component, gainType is LTCG when the holding period reaches the configured
threshold and STCG otherwise, and gain is proceeds minus cost (signed); records
without a sale are untouched. -/
def classifyTxn (threshold : Int) (t : MatchedTxn) : MatchedTxn :=
  match t.sale with
  | none => t
  | some s =>
      { t with
        gainType :=
          some (if threshold ≤ holdingMonths t.acquisitionDate s.saleDate
                then GainType.LTCG else GainType.STCG),
        gain := some (s.proceeds - t.cost) }

/-- Modelled from the spec (§4.3): sum of gains over records classified with the
given gain type. -/
def totalGainOf (gt : GainType) (ts : List MatchedTxn) : Rat :=
  (ts.filterMap (fun t => if t.gainType = some gt then t.gain else none)).sum

/-- From `src/types/index.ts` (`TaxDetails`): one tax bucket. -/
structure TaxDetails where
  taxableGain : Rat
  rate : Rat
  baseTax : Rat
  cess : Rat
  totalTax : Rat
  effectiveRate : String
deriving DecidableEq, Repr

/-- From `src/types/index.ts` (`CapitalGains`). -/
structure CapitalGains where
  totalLTCG : Rat
  totalSTCG : Rat
  ltcgExemption : Rat
  ltcgAfterExemption : Rat
  ltcgTax : TaxDetails
  stcgTax : TaxDetails
  totalTax : Rat
  netGain : Rat
deriving DecidableEq, Repr

/-- Two-decimal percentage rendering of a rational (the engine's number
formatting at the presentation boundary): round to the nearest hundredth and
print with exactly two decimals and a percent sign. -/
def fmt2 (q : Rat) : String :=
  let n : Int := round (q * 100)
  let a : Nat := n.natAbs
  let fracStr : String := (if a % 100 < 10 then "0" else "") ++ toString (a % 100)
  (if n < 0 then "-" else "") ++ toString (a / 100) ++ "." ++ fracStr ++ "%"

/-- Modelled from the spec (§4.3): one tax bucket: baseTax = taxable x rate/100,
cess = baseTax x cessRate/100, totalTax = baseTax + cess, effectiveRate =
totalTax / grossGain x 100 formatted to two decimals, or a literal zero-percent
string when the gross gain is not positive. -/
def taxBucket (taxable rate cessRate grossGain : Rat) : TaxDetails :=
  let baseTax := taxable * rate / 100
  let cessAmt := baseTax * cessRate / 100
  let total := baseTax + cessAmt
  { taxableGain := taxable, rate := rate, baseTax := baseTax, cess := cessAmt,
    totalTax := total,
    effectiveRate := if grossGain ≤ 0 then "0.00%" else fmt2 (total / grossGain * 100) }

/-- Modelled from the spec (§4.3): the Tax Calculator on aggregated gains:
ltcgAfterExemption = max 0 (totalLTCG - exemptionLimit); the LTCG bucket taxes
ltcgAfterExemption, the STCG bucket taxes max 0 totalSTCG; overall totalTax is
the sum of the bucket totals and netGain = totalLTCG + totalSTCG - totalTax. -/
def gainsFromTotals (cfg : TaxConfig) (lt st : Rat) : CapitalGains :=
  let afterEx := max 0 (lt - cfg.ltcg.exemptionLimit)
  let lBucket := taxBucket afterEx cfg.ltcg.rate cfg.ltcg.cess lt
  let sBucket := taxBucket (max 0 st) cfg.stcg.rate cfg.stcg.cess st
  { totalLTCG := lt, totalSTCG := st,
    ltcgExemption := cfg.ltcg.exemptionLimit,
    ltcgAfterExemption := afterEx,
    ltcgTax := lBucket, stcgTax := sBucket,
    totalTax := lBucket.totalTax + sBucket.totalTax,
    netGain := lt + st - (lBucket.totalTax + sBucket.totalTax) }

/-- Modelled from the spec (§4.3): the Tax Calculator on the portfolio's
classified MatchedTransactions. -/
def computeCapitalGains (cfg : TaxConfig) (ts : List MatchedTxn) : CapitalGains :=
  gainsFromTotals cfg (totalGainOf GainType.LTCG ts) (totalGainOf GainType.STCG ts)

/-- From `src/types/index.ts` (`ClosingBalance`). -/
structure ClosingBalance where
  share : String
  openingQty : Rat
  openingAmt : Rat
  purchaseQty : Rat
  purchaseAmt : Rat
  saleQty : Rat
  saleAmt : Rat
  closingQty : Rat
  closingAmt : Rat
  avgCostPrice : Rat
  realizedGain : Rat
  ltcg : Rat
  stcg : Rat
  firstPurchaseDate : Option Date
  transactions : List MatchedTxn
deriving DecidableEq, Repr

/-- Modelled from the spec (§4.4): the Position Aggregator for one share: sums
the opening/purchase/sale quantities and amounts directly from the input rows;
derives the closing quantity and amount by conservation; avgCostPrice is
closingAmt / closingQty (0 when closingQty is 0); realizedGain/ltcg/stcg sum
the classified gains; firstPurchaseDate is the acquisition date of the first
remaining open lot (the queue is in acquisition order). -/
def mkBalance (share : String) (rows : List TransactionRow)
    (ts : List MatchedTxn) : ClosingBalance :=
  let oQ := (rows.map TransactionRow.openingQty).sum
  let oA := (rows.map TransactionRow.openingAmt).sum
  let pQ := (rows.map TransactionRow.purchaseQty).sum
  let pA := (rows.map TransactionRow.purchaseAmt).sum
  let sQ := (rows.map TransactionRow.saleQty).sum
  let sA := (rows.map TransactionRow.saleAmt).sum
  let cQ := oQ + pQ - sQ
  let cA := oA + pA - sA
  { share := share,
    openingQty := oQ, openingAmt := oA, purchaseQty := pQ, purchaseAmt := pA,
    saleQty := sQ, saleAmt := sA, closingQty := cQ, closingAmt := cA,
    avgCostPrice := if cQ = 0 then 0 else cA / cQ,
    realizedGain := (ts.filterMap MatchedTxn.gain).sum,
    ltcg := totalGainOf GainType.LTCG ts,
    stcg := totalGainOf GainType.STCG ts,
    firstPurchaseDate :=
      ((ts.filterMap (fun t => if t.sale = none then t.acquisitionDate else none)).head?),
    transactions := ts }

/-- Modelled from the spec (§4.1, §4.2, §4.4): one share's full computation:
match the lots, classify the matched records with the configured LTCG holding
threshold, and aggregate the closing balance; an oversold share is rejected
with the Oversold error. -/
def computeBalance (cfg : TaxConfig) (share : String)
    (rows : List TransactionRow) : Except MatchError ClosingBalance :=
  match matchShare rows with
  | Except.error e => Except.error e
  | Except.ok ts =>
      Except.ok (mkBalance share rows (ts.map (classifyTxn cfg.ltcg.holdingPeriod)))

/-- From `src/types/index.ts` (`Summary`): `portfolioReturn` is
`string | number` in the source, embedded as a sum type. -/
structure Summary where
  totalShares : Nat
  totalOpeningValue : Rat
  totalPurchaseValue : Rat
  totalSaleValue : Rat
  totalClosingValue : Rat
  totalRealizedGain : Rat
  totalUnrealizedGain : Rat
  portfolioReturn : String ⊕ Rat
deriving DecidableEq, Repr

/-- Modelled from the spec (§3, §4.4): cost basis of a share's remaining open
lots: the summed cost of its MatchedTransactions without a sale component. -/
def remainingCost (ts : List MatchedTxn) : Rat :=
  (ts.filterMap (fun t => if t.sale = none then some t.cost else none)).sum

/-- Modelled from the spec (§4.4): the portfolio Summary: sums every
ClosingBalance field across shares; total unrealized gain is closing value
minus the cost basis of remaining lots; portfolioReturn is
(realized + unrealized) / (opening + purchase) x 100, with the string
sentinel when the denominator is zero. -/
def summaryOf (bs : List ClosingBalance) : Summary :=
  let oV := (bs.map ClosingBalance.openingAmt).sum
  let pV := (bs.map ClosingBalance.purchaseAmt).sum
  let sV := (bs.map ClosingBalance.saleAmt).sum
  let cV := (bs.map ClosingBalance.closingAmt).sum
  let rG := (bs.map ClosingBalance.realizedGain).sum
  let uG := cV - (bs.map (fun b => remainingCost b.transactions)).sum
  { totalShares := bs.length,
    totalOpeningValue := oV, totalPurchaseValue := pV,
    totalSaleValue := sV, totalClosingValue := cV,
    totalRealizedGain := rG, totalUnrealizedGain := uG,
    portfolioReturn :=
      if oV + pV = 0 then Sum.inl "0.00"
      else Sum.inr ((rG + uG) / (oV + pV) * 100) }

/-- From `src/components/Settings.tsx` (cess input onChange handler): a single
change event parses the input once and writes the same value into both
`stcg.cess` and `ltcg.cess`. -/
def handleCessChange (config : TaxConfig) (cessValue : Rat) : TaxConfig :=
  { config with
    stcg := { config.stcg with cess := cessValue },
    ltcg := { config.ltcg with cess := cessValue } }

/-! ### Sum lemmas for the quantity aggregates -/

theorem txnsQty_nil : txnsQty [] = 0 := rfl

theorem txnsQty_cons (t : MatchedTxn) (ts : List MatchedTxn) :
    txnsQty (t :: ts) = t.quantity + txnsQty ts := by
  simp [txnsQty]

theorem txnsQty_append (ts us : List MatchedTxn) :
    txnsQty (ts ++ us) = txnsQty ts + txnsQty us := by
  simp [txnsQty]

theorem lotsQty_nil : lotsQty [] = 0 := rfl

theorem lotsQty_cons (l : Lot) (ls : List Lot) :
    lotsQty (l :: ls) = l.quantity + lotsQty ls := by
  simp [lotsQty]

theorem saleQtySum_nil : saleQtySum [] = 0 := rfl

theorem saleQtySum_cons (t : MatchedTxn) (ts : List MatchedTxn) :
    saleQtySum (t :: ts)
      = (t.sale.map SaleInfo.saleQty).getD 0 + saleQtySum ts := by
  cases h : t.sale <;> simp [saleQtySum, h]

theorem saleQtySum_append (ts us : List MatchedTxn) :
    saleQtySum (ts ++ us) = saleQtySum ts + saleQtySum us := by
  simp [saleQtySum]

/-! ### Lot Matcher conservation lemmas -/

/-- Consuming one sale from the queue conserves quantity: consumed plus
remaining equals the original queue quantity. -/
theorem consumeFrom_conserve (sd : Option Date) (p : Rat) :
    ∀ (lots : List Lot) (rem : Rat) (ms : List MatchedTxn) (lots2 : List Lot),
      consumeFrom sd p lots rem = Except.ok (ms, lots2) →
      txnsQty ms + lotsQty lots2 = lotsQty lots := by
  intro lots
  induction lots with
  | nil =>
      intro rem ms lots2 h
      simp only [consumeFrom] at h
      split at h
      · cases h
        simp [txnsQty_nil, lotsQty_nil]
      · cases h
  | cons lot rest ih =>
      intro rem ms lots2 h
      simp only [consumeFrom] at h
      split at h
      · cases h
        simp [txnsQty_nil]
      · split at h
        · cases heq : consumeFrom sd p rest (rem - lot.quantity) with
          | error e => rw [heq] at h; cases h
          | ok pr =>
              obtain ⟨ms0, q⟩ := pr
              rw [heq] at h
              cases h
              have hrec := ih (rem - lot.quantity) ms0 lots2 heq
              simp only [txnsQty_cons, lotsQty_cons]
              linarith
        · cases h
          simp only [txnsQty_cons, txnsQty_nil, lotsQty_cons]
          ring

/-- Consuming one sale from the queue consumes exactly the sale quantity when
the matcher succeeds (for a non-negative sale quantity). -/
theorem consumeFrom_consumed (sd : Option Date) (p : Rat) :
    ∀ (lots : List Lot) (rem : Rat) (ms : List MatchedTxn) (lots2 : List Lot),
      0 ≤ rem →
      consumeFrom sd p lots rem = Except.ok (ms, lots2) →
      txnsQty ms = rem := by
  intro lots
  induction lots with
  | nil =>
      intro rem ms lots2 hrem h
      simp only [consumeFrom] at h
      split at h
      · cases h
        simp [txnsQty_nil]
        linarith [‹rem ≤ 0›]
      · cases h
  | cons lot rest ih =>
      intro rem ms lots2 hrem h
      simp only [consumeFrom] at h
      split at h
      · cases h
        simp [txnsQty_nil]
        linarith [‹rem ≤ 0›]
      · split at h
        · cases heq : consumeFrom sd p rest (rem - lot.quantity) with
          | error e => rw [heq] at h; cases h
          | ok pr =>
              obtain ⟨ms0, q⟩ := pr
              rw [heq] at h
              cases h
              have hrec := ih (rem - lot.quantity) ms0 lots2 (by linarith [‹lot.quantity ≤ rem›]) heq
              simp only [txnsQty_cons]
              linarith
        · cases h
          simp [txnsQty_cons, txnsQty_nil]

/-- Every record produced by one consumption is a matched record whose sale
quantity equals its lot quantity. -/
theorem consumeFrom_saleQty (sd : Option Date) (p : Rat) :
    ∀ (lots : List Lot) (rem : Rat) (ms : List MatchedTxn) (lots2 : List Lot),
      consumeFrom sd p lots rem = Except.ok (ms, lots2) →
      saleQtySum ms = txnsQty ms := by
  intro lots
  induction lots with
  | nil =>
      intro rem ms lots2 h
      simp only [consumeFrom] at h
      split at h
      · cases h; rfl
      · cases h
  | cons lot rest ih =>
      intro rem ms lots2 h
      simp only [consumeFrom] at h
      split at h
      · cases h; rfl
      · split at h
        · cases heq : consumeFrom sd p rest (rem - lot.quantity) with
          | error e => rw [heq] at h; cases h
          | ok pr =>
              obtain ⟨ms0, q⟩ := pr
              rw [heq] at h
              cases h
              have hrec := ih (rem - lot.quantity) ms0 lots2 heq
              simp [saleQtySum_cons, txnsQty_cons, hrec]
        · cases h
          simp [saleQtySum_cons, txnsQty_cons, saleQtySum_nil, txnsQty_nil]

/-- Consumption keeps all remaining lot quantities non-negative. -/
theorem consumeFrom_nonneg (sd : Option Date) (p : Rat) :
    ∀ (lots : List Lot) (rem : Rat) (ms : List MatchedTxn) (lots2 : List Lot),
      (∀ l ∈ lots, 0 ≤ l.quantity) →
      consumeFrom sd p lots rem = Except.ok (ms, lots2) →
      ∀ l ∈ lots2, 0 ≤ l.quantity := by
  intro lots
  induction lots with
  | nil =>
      intro rem ms lots2 hn h
      simp only [consumeFrom] at h
      split at h
      · cases h; intro l hl; cases hl
      · cases h
  | cons lot rest ih =>
      intro rem ms lots2 hn h
      simp only [consumeFrom] at h
      split at h
      · cases h; exact hn
      · split at h
        · cases heq : consumeFrom sd p rest (rem - lot.quantity) with
          | error e => rw [heq] at h; cases h
          | ok pr =>
              obtain ⟨ms0, q⟩ := pr
              rw [heq] at h
              cases h
              exact ih (rem - lot.quantity) ms0 lots2
                (fun l hl => hn l (List.mem_cons_of_mem _ hl)) heq
        · cases h
          intro l hl
          rcases List.mem_cons.mp hl with hl | hl
          · subst hl
            simp only
            have : ¬ rem ≤ 0 := by assumption
            have : ¬ lot.quantity ≤ rem := by assumption
            linarith
          · exact hn l (List.mem_cons_of_mem _ hl)

/-- Running all sales conserves quantity: total matched quantity plus the final
remaining queue quantity equals the initial queue quantity. -/
theorem runSales_conserve :
    ∀ (ss : List SaleEvent) (lots : List Lot) (ms : List MatchedTxn) (fin2 : List Lot),
      runSales lots ss = Except.ok (ms, fin2) →
      txnsQty ms + lotsQty fin2 = lotsQty lots := by
  intro ss
  induction ss with
  | nil =>
      intro lots ms fin2 h
      simp only [runSales] at h
      cases h
      simp [txnsQty_nil]
  | cons s ss ih =>
      intro lots ms fin2 h
      simp only [runSales] at h
      cases heq : consumeFrom s.date (s.amt / s.qty) lots s.qty with
      | error e => rw [heq] at h; cases h
      | ok pr =>
          obtain ⟨ms1, lots1⟩ := pr
          rw [heq] at h
          dsimp only at h
          cases hrun : runSales lots1 ss with
          | error e => rw [hrun] at h; cases h
          | ok pr2 =>
              obtain ⟨ms2, fin3⟩ := pr2
              rw [hrun] at h
              cases h
              have h1 := consumeFrom_conserve s.date (s.amt / s.qty) lots s.qty ms1 lots1 heq
              have h2 := ih lots1 ms2 fin2 hrun
              simp only [txnsQty_append]
              linarith

/-- Running all sales consumes exactly the total sale quantity when all sale
quantities are non-negative. -/
theorem runSales_consumed :
    ∀ (ss : List SaleEvent) (lots : List Lot) (ms : List MatchedTxn) (fin2 : List Lot),
      (∀ s ∈ ss, 0 ≤ s.qty) →
      runSales lots ss = Except.ok (ms, fin2) →
      txnsQty ms = (ss.map SaleEvent.qty).sum := by
  intro ss
  induction ss with
  | nil =>
      intro lots ms fin2 _ h
      simp only [runSales] at h
      cases h
      simp [txnsQty_nil]
  | cons s ss ih =>
      intro lots ms fin2 hq h
      simp only [runSales] at h
      cases heq : consumeFrom s.date (s.amt / s.qty) lots s.qty with
      | error e => rw [heq] at h; cases h
      | ok pr =>
          obtain ⟨ms1, lots1⟩ := pr
          rw [heq] at h
          dsimp only at h
          cases hrun : runSales lots1 ss with
          | error e => rw [hrun] at h; cases h
          | ok pr2 =>
              obtain ⟨ms2, fin3⟩ := pr2
              rw [hrun] at h
              cases h
              have h1 := consumeFrom_consumed s.date (s.amt / s.qty) lots s.qty ms1 lots1
                (hq s (List.mem_cons_self s ss)) heq
              have h2 := ih lots1 ms2 fin2 (fun x hx => hq x (List.mem_cons_of_mem _ hx)) hrun
              simp only [txnsQty_append, List.map_cons, List.sum_cons]
              linarith

/-- Every matched record produced by the sale runs carries a sale quantity
equal to its consumed lot quantity. -/
theorem runSales_saleQty :
    ∀ (ss : List SaleEvent) (lots : List Lot) (ms : List MatchedTxn) (fin2 : List Lot),
      runSales lots ss = Except.ok (ms, fin2) →
      saleQtySum ms = txnsQty ms := by
  intro ss
  induction ss with
  | nil =>
      intro lots ms fin2 h
      simp only [runSales] at h
      cases h
      rfl
  | cons s ss ih =>
      intro lots ms fin2 h
      simp only [runSales] at h
      cases heq : consumeFrom s.date (s.amt / s.qty) lots s.qty with
      | error e => rw [heq] at h; cases h
      | ok pr =>
          obtain ⟨ms1, lots1⟩ := pr
          rw [heq] at h
          dsimp only at h
          cases hrun : runSales lots1 ss with
          | error e => rw [hrun] at h; cases h
          | ok pr2 =>
              obtain ⟨ms2, fin3⟩ := pr2
              rw [hrun] at h
              cases h
              have h1 := consumeFrom_saleQty s.date (s.amt / s.qty) lots s.qty ms1 lots1 heq
              have h2 := ih lots1 ms2 fin2 hrun
              simp [saleQtySum_append, txnsQty_append, h1, h2]

/-- The sale runs keep all remaining lot quantities non-negative. -/
theorem runSales_nonneg :
    ∀ (ss : List SaleEvent) (lots : List Lot) (ms : List MatchedTxn) (fin2 : List Lot),
      (∀ l ∈ lots, 0 ≤ l.quantity) →
      runSales lots ss = Except.ok (ms, fin2) →
      ∀ l ∈ fin2, 0 ≤ l.quantity := by
  intro ss
  induction ss with
  | nil =>
      intro lots ms fin2 hn h
      simp only [runSales] at h
      cases h
      exact hn
  | cons s ss ih =>
      intro lots ms fin2 hn h
      simp only [runSales] at h
      cases heq : consumeFrom s.date (s.amt / s.qty) lots s.qty with
      | error e => rw [heq] at h; cases h
      | ok pr =>
          obtain ⟨ms1, lots1⟩ := pr
          rw [heq] at h
          dsimp only at h
          cases hrun : runSales lots1 ss with
          | error e => rw [hrun] at h; cases h
          | ok pr2 =>
              obtain ⟨ms2, fin3⟩ := pr2
              rw [hrun] at h
              cases h
              exact ih lots1 ms2 fin2
                (consumeFrom_nonneg s.date (s.amt / s.qty) lots s.qty ms1 lots1 hn heq) hrun

/-- Every lot in the acquisition queue has positive quantity. -/
theorem buildQueue_nonneg (rows : List TransactionRow) :
    ∀ l ∈ buildQueue rows, 0 ≤ l.quantity := by
  intro l hl
  rcases List.mem_append.mp hl with hm | hm <;>
  · obtain ⟨r, _, hr⟩ := List.mem_filterMap.mp hm
    first
    | (unfold openingLotOf at hr
       split at hr
       · cases hr; exact le_of_lt (by assumption)
       · cases hr)
    | (unfold purchaseLotOf at hr
       split at hr
       · cases hr; exact le_of_lt (by assumption)
       · cases hr)

/-- The opening lots of the queue carry exactly the total opening quantity
(rows with zero opening quantity contribute no lot and no quantity). -/
theorem openingLots_qty :
    ∀ (rows : List TransactionRow), (∀ r ∈ rows, 0 ≤ r.openingQty) →
      ((rows.filterMap openingLotOf).map Lot.quantity).sum
        = (rows.map TransactionRow.openingQty).sum := by
  intro rows
  induction rows with
  | nil => intro _; rfl
  | cons r rs ih =>
      intro hv
      have hr := hv r (List.mem_cons_self r rs)
      have ihr := ih (fun x hx => hv x (List.mem_cons_of_mem _ hx))
      by_cases h : 0 < r.openingQty
      · simp [List.filterMap_cons, openingLotOf, h, ihr]
      · have h0 : r.openingQty = 0 := le_antisymm (not_lt.mp h) hr
        simp [List.filterMap_cons, openingLotOf, h, h0, ihr]

/-- The purchase lots of the queue carry exactly the total purchase quantity. -/
theorem purchaseLots_qty :
    ∀ (rows : List TransactionRow), (∀ r ∈ rows, 0 ≤ r.purchaseQty) →
      ((rows.filterMap purchaseLotOf).map Lot.quantity).sum
        = (rows.map TransactionRow.purchaseQty).sum := by
  intro rows
  induction rows with
  | nil => intro _; rfl
  | cons r rs ih =>
      intro hv
      have hr := hv r (List.mem_cons_self r rs)
      have ihr := ih (fun x hx => hv x (List.mem_cons_of_mem _ hx))
      by_cases h : 0 < r.purchaseQty
      · simp [List.filterMap_cons, purchaseLotOf, h, ihr]
      · have h0 : r.purchaseQty = 0 := le_antisymm (not_lt.mp h) hr
        simp [List.filterMap_cons, purchaseLotOf, h, h0, ihr]

/-- With valid rows, the acquisition queue holds exactly the total opening plus
purchase quantity. -/
theorem buildQueue_qty (rows : List TransactionRow)
    (hv : ∀ r ∈ rows, validRow r) :
    lotsQty (buildQueue rows) = totalOpeningQty rows + totalPurchaseQty rows := by
  unfold buildQueue totalOpeningQty totalPurchaseQty lotsQty
  rw [List.map_append, List.sum_append]
  rw [openingLots_qty rows (fun r hr => (hv r hr).1),
      purchaseLots_qty rows (fun r hr => (hv r hr).2.2.1)]

/-- The sale events carry exactly the total sale quantity of valid rows
(rows with zero sale quantity are skipped and contribute nothing). -/
theorem saleEvents_qty :
    ∀ (rows : List TransactionRow), (∀ r ∈ rows, 0 ≤ r.saleQty) →
      ((saleEvents rows).map SaleEvent.qty).sum
        = (rows.map TransactionRow.saleQty).sum := by
  intro rows
  induction rows with
  | nil => intro _; rfl
  | cons r rs ih =>
      intro hv
      have hr := hv r (List.mem_cons_self r rs)
      have ihr := ih (fun x hx => hv x (List.mem_cons_of_mem _ hx))
      by_cases h : 0 < r.saleQty
      · simp [saleEvents, List.filter_cons, h] at ihr ⊢
        simp [ihr]
      · have h0 : r.saleQty = 0 := le_antisymm (not_lt.mp h) hr
        simp [saleEvents, List.filter_cons, h] at ihr ⊢
        simp [h0, ihr]

/-- Every sale event has positive quantity. -/
theorem saleEvents_nonneg (rows : List TransactionRow) :
    ∀ s ∈ saleEvents rows, 0 ≤ s.qty := by
  intro s hs
  unfold saleEvents at hs
  obtain ⟨r, hr, hmk⟩ := List.mem_map.mp hs
  have hpos : 0 < r.saleQty := by simpa using (List.mem_filter.mp hr).2
  cases hmk
  exact le_of_lt hpos

/-- Unmatched records carry exactly the remaining lot quantities. -/
theorem txnsQty_unmatched (ls : List Lot) :
    txnsQty (ls.map unmatchedTxn) = lotsQty ls := by
  induction ls with
  | nil => rfl
  | cons l ls ih =>
      simp [txnsQty_cons, lotsQty_cons, unmatchedTxn, ih]

/-- Unmatched records carry no sale quantity. -/
theorem saleQtySum_unmatched (ls : List Lot) :
    saleQtySum (ls.map unmatchedTxn) = 0 := by
  induction ls with
  | nil => rfl
  | cons l ls ih =>
      simp [saleQtySum_cons, unmatchedTxn, ih]

/-- A list of lots with non-negative quantities has non-negative total. -/
theorem lotsQty_nonneg (ls : List Lot) (h : ∀ l ∈ ls, 0 ≤ l.quantity) :
    0 ≤ lotsQty ls := by
  unfold lotsQty
  refine List.sum_nonneg ?_
  intro q hq
  obtain ⟨l, hl, rfl⟩ := List.mem_map.mp hq
  exact h l hl

/-- The Lot Matcher's aggregate accounting on a successful run: the produced
records carry the whole opening-plus-purchase quantity, the matched sale
quantities add to the total sale quantity, and the total sale quantity never
exceeds the available quantity. -/
theorem matchShare_sums (rows : List TransactionRow) (ts : List MatchedTxn)
    (hv : ∀ r ∈ rows, validRow r)
    (h : matchShare rows = Except.ok ts) :
    txnsQty ts = totalOpeningQty rows + totalPurchaseQty rows ∧
      saleQtySum ts = totalSaleQty rows ∧
      totalSaleQty rows ≤ totalOpeningQty rows + totalPurchaseQty rows := by
  unfold matchShare at h
  cases hrun : runSales (buildQueue rows) (saleEvents rows) with
  | error e => rw [hrun] at h; cases h
  | ok pr =>
      obtain ⟨ms, rem⟩ := pr
      rw [hrun] at h
      cases h
      have hqueue := buildQueue_qty rows hv
      have hcons := runSales_conserve (saleEvents rows) (buildQueue rows) ms rem hrun
      have hcsmd := runSales_consumed (saleEvents rows) (buildQueue rows) ms rem
        (saleEvents_nonneg rows) hrun
      have hsale := runSales_saleQty (saleEvents rows) (buildQueue rows) ms rem hrun
      have hrem : 0 ≤ lotsQty rem :=
        lotsQty_nonneg rem
          (runSales_nonneg (saleEvents rows) (buildQueue rows) ms rem
            (buildQueue_nonneg rows) hrun)
      have hsq : ((saleEvents rows).map SaleEvent.qty).sum = totalSaleQty rows := by
        unfold totalSaleQty
        exact saleEvents_qty rows (fun r hr => (hv r hr).2.2.2.2.1)
      refine ⟨?_, ?_, ?_⟩
      · rw [txnsQty_append, txnsQty_unmatched]
        linarith
      · rw [saleQtySum_append, saleQtySum_unmatched, hsale]
        linarith
      · linarith

/-! ### Concrete inputs used by the witnesses and scenarios -/

/-- A small valid input: an opening lot of 2 units costing 10, of which 1 unit
is sold for 7. -/
def rowW : TransactionRow :=
  { share := "W", openingDate := some ⟨2024, 1, 1⟩, openingQty := 2, openingAmt := 10,
    purchaseDate := none, purchaseQty := 0, purchaseAmt := 0,
    saleDate := some ⟨2024, 6, 1⟩, saleQty := 1, saleAmt := 7 }

/-- The Lot Matcher's output on `[rowW]`: one matched record consuming 1 unit
of the opening lot, and the split remainder of 1 unit as an unmatched record. -/
def txnsW : List MatchedTxn :=
  [{ acquisitionDate := some ⟨2024, 1, 1⟩, quantity := 1, cost := 5,
     sale := some { saleDate := some ⟨2024, 6, 1⟩, saleQty := 1, proceeds := 7 },
     gainType := none, gain := none },
   { acquisitionDate := some ⟨2024, 1, 1⟩, quantity := 1, cost := 5,
     sale := none, gainType := none, gain := none }]

/-- C1: for every share and every valid (non-oversold) input, the Lot Matcher
preserves quantity: the produced MatchedTransactions (matched and unmatched)
carry exactly the share's openingQty + purchaseQty, and the matched sale
quantities add to exactly the share's saleQty. -/
theorem fifo_quantity_conservation (rows : List TransactionRow)
    (ts : List MatchedTxn) (hv : ∀ r ∈ rows, validRow r)
    (h : matchShare rows = Except.ok ts) :
    txnsQty ts = totalOpeningQty rows + totalPurchaseQty rows ∧
      saleQtySum ts = totalSaleQty rows :=
  ⟨(matchShare_sums rows ts hv h).1, (matchShare_sums rows ts hv h).2.1⟩

theorem fifo_quantity_conservation_witness :
    (∀ r ∈ [rowW], validRow r) ∧
    (txnsQty txnsW = totalOpeningQty [rowW] + totalPurchaseQty [rowW] ∧
      saleQtySum txnsW = totalSaleQty [rowW]) :=
  ⟨of_decide_eq_true (by with_unfolding_all rfl),
   fifo_quantity_conservation [rowW] txnsW
     (of_decide_eq_true (by with_unfolding_all rfl))
     (by with_unfolding_all rfl)⟩

/-- An oversold input: 1 unit available, 3 units sold. -/
def rowOver : TransactionRow :=
  { share := "V", openingDate := some ⟨2024, 1, 1⟩, openingQty := 1, openingAmt := 10,
    purchaseDate := none, purchaseQty := 0, purchaseAmt := 0,
    saleDate := some ⟨2024, 6, 1⟩, saleQty := 3, saleAmt := 30 }

/-- C7: for every valid input in which a share's total sale quantity exceeds
its total available lot quantity (opening plus purchases), the Lot Matcher
raises the Oversold error for that share — it never silently clamps the sale
or drops the excess. -/
theorem oversold_raises_error (rows : List TransactionRow)
    (hv : ∀ r ∈ rows, validRow r)
    (hover : totalOpeningQty rows + totalPurchaseQty rows < totalSaleQty rows) :
    matchShare rows = Except.error MatchError.oversold := by
  cases hm : matchShare rows with
  | error e => cases e; rfl
  | ok ts =>
      exfalso
      have := (matchShare_sums rows ts hv hm).2.2
      linarith

theorem oversold_raises_error_witness :
    matchShare [rowOver] = Except.error MatchError.oversold :=
  oversold_raises_error [rowOver]
    (of_decide_eq_true (by with_unfolding_all rfl))
    (of_decide_eq_true (by with_unfolding_all rfl))

/-- The default tax configuration (Budget 2024-25 values shown throughout the
source): LTCG 12.5% over a 125000 exemption, STCG 20%, 4% cess, 12-month
holding threshold. -/
def cfg0 : TaxConfig :=
  { financialYear := "2025-2026",
    stcg := { rate := 20, description := "", holdingPeriod := 12, cess := 4 },
    ltcg := { rate := 12.5, description := "", holdingPeriod := 12,
              exemptionLimit := 125000, cess := 4, indexationBenefit := false } }

/-- The closing balance computed for `[rowW]` under `cfg0`: 1 unit left at
cost 3 after selling 1 of 2 opening units (held 5 months, so STCG, gain 2). -/
def bW : ClosingBalance :=
  { share := "W", openingQty := 2, openingAmt := 10, purchaseQty := 0,
    purchaseAmt := 0, saleQty := 1, saleAmt := 7, closingQty := 1,
    closingAmt := 3, avgCostPrice := 3, realizedGain := 2, ltcg := 0, stcg := 2,
    firstPurchaseDate := some ⟨2024, 1, 1⟩,
    transactions :=
      [{ acquisitionDate := some ⟨2024, 1, 1⟩, quantity := 1, cost := 5,
         sale := some { saleDate := some ⟨2024, 6, 1⟩, saleQty := 1, proceeds := 7 },
         gainType := some GainType.STCG, gain := some 2 },
       { acquisitionDate := some ⟨2024, 1, 1⟩, quantity := 1, cost := 5,
         sale := none, gainType := none, gain := none }] }

/-- C2: for every share of a valid ledger the ClosingBalance satisfies
closingQty = openingQty + purchaseQty - saleQty with closingQty non-negative,
and every Summary total equals the sum of the corresponding per-share
ClosingBalance field. -/
theorem closing_conservation_and_summary_totals :
    (∀ (cfg : TaxConfig) (sh : String) (rows : List TransactionRow)
        (b : ClosingBalance),
        (∀ r ∈ rows, validRow r) →
        computeBalance cfg sh rows = Except.ok b →
        b.closingQty = b.openingQty + b.purchaseQty - b.saleQty ∧
          0 ≤ b.closingQty) ∧
    (∀ bs : List ClosingBalance,
        (summaryOf bs).totalOpeningValue = (bs.map ClosingBalance.openingAmt).sum ∧
        (summaryOf bs).totalPurchaseValue = (bs.map ClosingBalance.purchaseAmt).sum ∧
        (summaryOf bs).totalSaleValue = (bs.map ClosingBalance.saleAmt).sum ∧
        (summaryOf bs).totalClosingValue = (bs.map ClosingBalance.closingAmt).sum ∧
        (summaryOf bs).totalRealizedGain = (bs.map ClosingBalance.realizedGain).sum) := by
  constructor
  · intro cfg sh rows b hv h
    unfold computeBalance at h
    cases hm : matchShare rows with
    | error e => rw [hm] at h; cases h
    | ok ts =>
        rw [hm] at h
        cases h
        have hover := (matchShare_sums rows ts hv hm).2.2
        unfold totalOpeningQty totalPurchaseQty totalSaleQty at hover
        constructor
        · simp [mkBalance]
        · simp only [mkBalance]
          linarith
  · intro bs
    exact ⟨rfl, rfl, rfl, rfl, rfl⟩

theorem closing_conservation_and_summary_totals_witness :
    (bW.closingQty = bW.openingQty + bW.purchaseQty - bW.saleQty ∧
      0 ≤ bW.closingQty) ∧
    ((summaryOf [bW]).totalOpeningValue = ([bW].map ClosingBalance.openingAmt).sum ∧
      (summaryOf [bW]).totalPurchaseValue = ([bW].map ClosingBalance.purchaseAmt).sum ∧
      (summaryOf [bW]).totalSaleValue = ([bW].map ClosingBalance.saleAmt).sum ∧
      (summaryOf [bW]).totalClosingValue = ([bW].map ClosingBalance.closingAmt).sum ∧
      (summaryOf [bW]).totalRealizedGain = ([bW].map ClosingBalance.realizedGain).sum) :=
  ⟨closing_conservation_and_summary_totals.1 cfg0 "W" [rowW] bW
     (of_decide_eq_true (by with_unfolding_all rfl))
     (by with_unfolding_all rfl),
   closing_conservation_and_summary_totals.2 [bW]⟩

/-- C8: portfolioReturn is (realized + unrealized) / (opening + purchase) x 100
when the denominator is non-zero, and the string sentinel "0.00" — not the
number 0 — when the denominator is zero, so the computation never divides by
zero. -/
theorem portfolioReturn_sentinel (bs : List ClosingBalance) :
    ((summaryOf bs).totalOpeningValue + (summaryOf bs).totalPurchaseValue = 0 →
        (summaryOf bs).portfolioReturn = Sum.inl "0.00") ∧
    ((summaryOf bs).totalOpeningValue + (summaryOf bs).totalPurchaseValue ≠ 0 →
        (summaryOf bs).portfolioReturn = Sum.inr
          (((summaryOf bs).totalRealizedGain + (summaryOf bs).totalUnrealizedGain)
            / ((summaryOf bs).totalOpeningValue + (summaryOf bs).totalPurchaseValue)
            * 100)) := by
  unfold summaryOf
  dsimp only
  constructor
  · intro h
    rw [if_pos h]
  · intro h
    rw [if_neg h]

theorem portfolioReturn_sentinel_witness :
    (summaryOf []).portfolioReturn = Sum.inl "0.00" ∧
    (summaryOf [bW]).portfolioReturn = Sum.inr
      (((summaryOf [bW]).totalRealizedGain + (summaryOf [bW]).totalUnrealizedGain)
        / ((summaryOf [bW]).totalOpeningValue + (summaryOf [bW]).totalPurchaseValue)
        * 100) :=
  ⟨(portfolioReturn_sentinel []).1 (of_decide_eq_true (by with_unfolding_all rfl)),
   (portfolioReturn_sentinel [bW]).2 (of_decide_eq_true (by with_unfolding_all rfl))⟩

/-- A matched record held exactly 12 whole months (2024-01-10 to 2025-01-10). -/
def sW3 : SaleInfo :=
  { saleDate := some ⟨2025, 1, 10⟩, saleQty := 1, proceeds := 2 }

/-- A sale-bearing MatchedTransaction for the classifier boundary witness. -/
def tW3 : MatchedTxn :=
  { acquisitionDate := some ⟨2024, 1, 10⟩, quantity := 1, cost := 1,
    sale := some sW3, gainType := none, gain := none }

/-- C3: for every MatchedTransaction with a sale component, with h the whole-
month (floored) difference between acquisition and sale date, gainType is LTCG
exactly when h reaches the configured threshold; in particular a lot held
exactly the threshold is LTCG and one held threshold - 1 months is STCG, for
every threshold. -/
theorem classification_threshold (threshold : Int) (t : MatchedTxn)
    (s : SaleInfo) (a d : Date) (hs : t.sale = some s)
    (ha : t.acquisitionDate = some a) (hd : s.saleDate = some d) :
    (classifyTxn threshold t).gainType
      = some (if threshold ≤ monthsBetween a d then GainType.LTCG
              else GainType.STCG) ∧
    (monthsBetween a d = threshold →
        (classifyTxn threshold t).gainType = some GainType.LTCG) ∧
    (monthsBetween a d = threshold - 1 →
        (classifyTxn threshold t).gainType = some GainType.STCG) := by
  unfold classifyTxn
  rw [hs]
  dsimp only
  rw [ha, hd]
  simp only [holdingMonths]
  refine ⟨trivial, ?_, ?_⟩
  · intro h
    rw [if_pos (le_of_eq h.symm)]
  · intro h
    rw [if_neg (by omega)]

theorem classification_threshold_witness :
    (classifyTxn 12 tW3).gainType = some GainType.LTCG ∧
    (classifyTxn 13 tW3).gainType = some GainType.STCG :=
  ⟨(classification_threshold 12 tW3 sW3 ⟨2024, 1, 10⟩ ⟨2025, 1, 10⟩
      rfl rfl rfl).2.1 (by decide),
   (classification_threshold 13 tW3 sW3 ⟨2024, 1, 10⟩ ⟨2025, 1, 10⟩
      rfl rfl rfl).2.2 (by decide)⟩

/-- C4: ltcgAfterExemption = max 0 (totalLTCG - exemptionLimit), hence 0
whenever totalLTCG ≤ exemptionLimit; Scenario C: totalLTCG 100000 against
exemption 125000 produces zero taxable LTCG, zero LTCG tax and a zero-percent
effective rate. -/
theorem ltcg_exemption_rule (cfg : TaxConfig) (lt st : Rat) :
    (gainsFromTotals cfg lt st).ltcgAfterExemption
      = max 0 (lt - cfg.ltcg.exemptionLimit) ∧
    (lt ≤ cfg.ltcg.exemptionLimit →
        (gainsFromTotals cfg lt st).ltcgAfterExemption = 0) ∧
    ((gainsFromTotals cfg0 100000 0).ltcgAfterExemption = 0 ∧
      (gainsFromTotals cfg0 100000 0).ltcgTax.totalTax = 0 ∧
      (gainsFromTotals cfg0 100000 0).ltcgTax.effectiveRate = "0.00%") := by
  refine ⟨rfl, ?_, by with_unfolding_all rfl, by with_unfolding_all rfl,
    by with_unfolding_all rfl⟩
  intro h
  show max 0 (lt - cfg.ltcg.exemptionLimit) = 0
  exact max_eq_left (sub_nonpos.mpr h)

theorem ltcg_exemption_rule_witness :
    (gainsFromTotals cfg0 100000 0).ltcgAfterExemption = 0 :=
  (ltcg_exemption_rule cfg0 100000 0).2.1
    (of_decide_eq_true (by with_unfolding_all rfl))

/-- C5: each tax bucket computes baseTax = taxableGain x rate/100 on a
never-negative taxable amount (max 0 totalSTCG for STCG, the post-exemption
pool for LTCG), cess = baseTax x cessRate/100, totalTax = baseTax + cess, and
effectiveRate = totalTax / grossGain x 100 to two decimals ("0.00%" when the
gross gain is not positive); Scenario B: STCG 20% with 4% cess on 50000 gives
10000 + 400 = 10400 and "20.80%". -/
theorem tax_bucket_formulas (cfg : TaxConfig) (lt st : Rat) :
    (st ≤ 0 → (gainsFromTotals cfg lt st).stcgTax.effectiveRate = "0.00%") ∧
    (0 < st → (gainsFromTotals cfg lt st).stcgTax.effectiveRate
        = fmt2 ((gainsFromTotals cfg lt st).stcgTax.totalTax / st * 100)) ∧
    (gainsFromTotals cfg lt st).stcgTax.taxableGain = max 0 st ∧
    0 ≤ (gainsFromTotals cfg lt st).stcgTax.taxableGain ∧
    (gainsFromTotals cfg lt st).stcgTax.baseTax
      = (gainsFromTotals cfg lt st).stcgTax.taxableGain * cfg.stcg.rate / 100 ∧
    (gainsFromTotals cfg lt st).stcgTax.cess
      = (gainsFromTotals cfg lt st).stcgTax.baseTax * cfg.stcg.cess / 100 ∧
    (gainsFromTotals cfg lt st).stcgTax.totalTax
      = (gainsFromTotals cfg lt st).stcgTax.baseTax
        + (gainsFromTotals cfg lt st).stcgTax.cess ∧
    (gainsFromTotals cfg lt st).ltcgTax.taxableGain
      = (gainsFromTotals cfg lt st).ltcgAfterExemption ∧
    0 ≤ (gainsFromTotals cfg lt st).ltcgTax.taxableGain ∧
    (gainsFromTotals cfg lt st).ltcgTax.baseTax
      = (gainsFromTotals cfg lt st).ltcgTax.taxableGain * cfg.ltcg.rate / 100 ∧
    (gainsFromTotals cfg lt st).ltcgTax.cess
      = (gainsFromTotals cfg lt st).ltcgTax.baseTax * cfg.ltcg.cess / 100 ∧
    (gainsFromTotals cfg lt st).ltcgTax.totalTax
      = (gainsFromTotals cfg lt st).ltcgTax.baseTax
        + (gainsFromTotals cfg lt st).ltcgTax.cess ∧
    ((gainsFromTotals cfg0 0 50000).stcgTax.baseTax = 10000 ∧
      (gainsFromTotals cfg0 0 50000).stcgTax.cess = 400 ∧
      (gainsFromTotals cfg0 0 50000).stcgTax.totalTax = 10400 ∧
      (gainsFromTotals cfg0 0 50000).stcgTax.effectiveRate = "20.80%") := by
  refine ⟨?_, ?_, rfl, le_max_left 0 st, rfl, rfl, rfl, rfl,
    le_max_left 0 (lt - cfg.ltcg.exemptionLimit), rfl, rfl, rfl,
    by with_unfolding_all rfl, by with_unfolding_all rfl,
    by with_unfolding_all rfl, by with_unfolding_all rfl⟩
  · intro h
    unfold gainsFromTotals taxBucket
    dsimp only
    rw [if_pos h]
  · intro h
    unfold gainsFromTotals taxBucket
    dsimp only
    rw [if_neg (not_le.mpr h)]

theorem tax_bucket_formulas_witness :
    (gainsFromTotals cfg0 0 (-5)).stcgTax.effectiveRate = "0.00%" ∧
    (gainsFromTotals cfg0 0 50000).stcgTax.effectiveRate
      = fmt2 ((gainsFromTotals cfg0 0 50000).stcgTax.totalTax / 50000 * 100) :=
  ⟨(tax_bucket_formulas cfg0 0 (-5)).1
      (of_decide_eq_true (by with_unfolding_all rfl)),
   (tax_bucket_formulas cfg0 0 50000).2.1
      (of_decide_eq_true (by with_unfolding_all rfl))⟩

/-- The default configuration with the LTCG rate raised to 15%. -/
def cfgHi : TaxConfig :=
  { cfg0 with ltcg := { cfg0.ltcg with rate := 15 } }

/-- C9: for fixed gains, exemption and cess, the LTCG bucket's total tax is
monotonically non-decreasing in the LTCG rate. -/
theorem ltcg_tax_monotone_in_rate (c1 c2 : TaxConfig) (lt st : Rat)
    (hex : c1.ltcg.exemptionLimit = c2.ltcg.exemptionLimit)
    (hcess : c1.ltcg.cess = c2.ltcg.cess)
    (hc : 0 ≤ c1.ltcg.cess)
    (hr : c1.ltcg.rate ≤ c2.ltcg.rate) :
    (gainsFromTotals c1 lt st).ltcgTax.totalTax
      ≤ (gainsFromTotals c2 lt st).ltcgTax.totalTax := by
  unfold gainsFromTotals taxBucket
  dsimp only
  rw [← hex, ← hcess]
  have htn : (0 : Rat) ≤ max 0 (lt - c1.ltcg.exemptionLimit) := le_max_left _ _
  have h1 : max 0 (lt - c1.ltcg.exemptionLimit) * c1.ltcg.rate
      ≤ max 0 (lt - c1.ltcg.exemptionLimit) * c2.ltcg.rate :=
    mul_le_mul_of_nonneg_left hr htn
  have key : max 0 (lt - c1.ltcg.exemptionLimit) * c1.ltcg.rate * (100 + c1.ltcg.cess)
      ≤ max 0 (lt - c1.ltcg.exemptionLimit) * c2.ltcg.rate * (100 + c1.ltcg.cess) :=
    mul_le_mul_of_nonneg_right h1 (by linarith)
  have e1 : max 0 (lt - c1.ltcg.exemptionLimit) * c1.ltcg.rate / 100
      + (max 0 (lt - c1.ltcg.exemptionLimit) * c1.ltcg.rate / 100) * c1.ltcg.cess / 100
      = max 0 (lt - c1.ltcg.exemptionLimit) * c1.ltcg.rate * (100 + c1.ltcg.cess) / 10000 := by
    ring
  have e2 : max 0 (lt - c1.ltcg.exemptionLimit) * c2.ltcg.rate / 100
      + (max 0 (lt - c1.ltcg.exemptionLimit) * c2.ltcg.rate / 100) * c1.ltcg.cess / 100
      = max 0 (lt - c1.ltcg.exemptionLimit) * c2.ltcg.rate * (100 + c1.ltcg.cess) / 10000 := by
    ring
  rw [e1, e2]
  linarith [key]

theorem ltcg_tax_monotone_in_rate_witness :
    (gainsFromTotals cfg0 200000 0).ltcgTax.totalTax
      ≤ (gainsFromTotals cfgHi 200000 0).ltcgTax.totalTax :=
  ltcg_tax_monotone_in_rate cfg0 cfgHi 200000 0 rfl rfl
    (of_decide_eq_true (by with_unfolding_all rfl))
    (of_decide_eq_true (by with_unfolding_all rfl))

/-- Scenario A, first row: TCS opening 50 units for 165000 on 2023-05-15 and a
sale of 20 units for 84000 on 2025-08-20. -/
def rowA1 : TransactionRow :=
  { share := "TCS", openingDate := some ⟨2023, 5, 15⟩, openingQty := 50,
    openingAmt := 165000, purchaseDate := none, purchaseQty := 0,
    purchaseAmt := 0, saleDate := some ⟨2025, 8, 20⟩, saleQty := 20,
    saleAmt := 84000 }

/-- Scenario A, second row: TCS purchase of 30 units for 102000 on 2025-06-10. -/
def rowA2 : TransactionRow :=
  { share := "TCS", openingDate := none, openingQty := 0, openingAmt := 0,
    purchaseDate := some ⟨2025, 6, 10⟩, purchaseQty := 30, purchaseAmt := 102000,
    saleDate := none, saleQty := 0, saleAmt := 0 }

/-- C6: Scenario A: under the 12-month threshold the sale of 20 TCS units is
consumed entirely from the opening lot acquired 2023-05-15 (FIFO), classified
LTCG with gain 84000 - 20 x 3300 = 18000, and the closing balance is 60 units
at 183000. -/
theorem scenarioA_tcs :
    (computeBalance cfg0 "TCS" [rowA1, rowA2]).toOption.map
      (fun b => (b.closingQty, b.closingAmt,
        b.transactions.filterMap
          (fun t => t.sale.map
            (fun s => (t.acquisitionDate, t.quantity, s.saleQty, t.gainType, t.gain)))))
      = some (60, 183000,
          [(some ⟨2023, 5, 15⟩, 20, 20, some GainType.LTCG, some 18000)]) := by
  with_unfolding_all rfl

/-- C10: the Settings component's cess change handler writes the one parsed
value into both the STCG and the LTCG cess, so the resulting config always has
stcg.cess = ltcg.cess. -/
theorem cess_edit_unifies (config : TaxConfig) (v : Rat) :
    (handleCessChange config v).stcg.cess = (handleCessChange config v).ltcg.cess :=
  rfl

end Shares
